import Mathlib

/-!
Shallow embedding of src/wcwidth/wcwidth.py.

Code points are modelled as Nat (the value of Python ord), widths as Int
(the functions return -1, 1 or 2).  The external collaborator
unicodedata.combining is modelled as an abstract predicate
`combining : Nat → Bool` passed to each classifier, since the Unicode
character database is not part of this repository.

Python equality between values of different types (int vs str) is modelled
by `pyEq` on a small dynamic-value type `PyVal`: in Python, `ucs == u"\x00"`
with `ucs` an int is always False, because an int never compares equal to a
str.  The embedding keeps that comparison exactly as the source writes it.
-/

/-- Dynamic Python value, as far as wcwidth.py needs: ints and strings. -/
inductive PyVal where
  | int : Int → PyVal
  | str : String → PyVal

/-- Python == on dynamic values: ints compare with ints, strings with
strings, and values of different types are never equal. -/
def pyEq : PyVal → PyVal → Bool
  | PyVal.int a, PyVal.int b => a == b
  | PyVal.str a, PyVal.str b => a == b
  | _, _ => false

/-- Index into an interval table, Python table[i].  Out-of-range access is
given the default (0, 0); every access made by the search on a non-empty
table is in range, so this models Python list indexing there.  (On an empty
table Python raises IndexError in `_bisearch`; the claims are restricted to
non-empty tables.) -/
def tIdx (table : List (Nat × Nat)) (i : Nat) : Nat × Nat :=
  table.getD i (0, 0)

/-- The while loop of `_bisearch` (wcwidth.py lines 80-87): bounds are
Python ints, mid = (lbound + ubound) // 2 is floor division, matching
Lean Int division. -/
def bisearchLoop (ucs : Nat) (table : List (Nat × Nat)) (lbound ubound : Int) : Bool :=
  if h : lbound ≤ ubound then
    let mid := (lbound + ubound) / 2
    if (tIdx table mid.toNat).2 < ucs then
      bisearchLoop ucs table (mid + 1) ubound
    else if ucs < (tIdx table mid.toNat).1 then
      bisearchLoop ucs table lbound (mid - 1)
    else true
  else false
termination_by (ubound + 1 - lbound).toNat
decreasing_by
  · omega
  · omega

/-- Binary search in an interval table, wcwidth.py `_bisearch` lines 73-89:
lbound = 0, ubound = len(table) - 1, early rejection when ucs is below the
first low bound or above the last high bound, then the loop.  Python
returns the ints 0/1; the embedding returns Bool, used by `wcwidth_cjk`
only as a truth value. -/
def _bisearch (ucs : Nat) (table : List (Nat × Nat)) : Bool :=
  if ucs < (tIdx table 0).1 ∨ (tIdx table (table.length - 1)).2 < ucs then
    false
  else
    bisearchLoop ucs table 0 ((table.length : Int) - 1)

/-- The hard-coded wide-range disjunction of wcwidth.py lines 150-165,
transcribed comparison for comparison. -/
def wideRange (ucs : Nat) : Bool :=
  (0x1100 ≤ ucs) &&
  ((ucs ≤ 0x115f) ||
   (ucs == 0x2329) || (ucs == 0x232a) ||
   ((0x2e80 ≤ ucs) && (ucs ≤ 0xa4cf) &&
    (ucs != 0x303f) &&
    !((0x4dc0 ≤ ucs) && (ucs ≤ 0x4dff))) ||
   ((0xac00 ≤ ucs) && (ucs ≤ 0xd7a3)) ||
   ((0xf900 ≤ ucs) && (ucs ≤ 0xfaff)) ||
   ((0xfe10 ≤ ucs) && (ucs ≤ 0xfe19)) ||
   ((0xfe30 ≤ ucs) && (ucs ≤ 0xfe6f)) ||
   ((0xff00 ≤ ucs) && (ucs ≤ 0xff60)) ||
   ((0xffe0 ≤ ucs) && (ucs ≤ 0xffe6)) ||
   ((0x20000 ≤ ucs) && (ucs ≤ 0x2fffd)) ||
   ((0x30000 ≤ ucs) && (ucs ≤ 0x3fffd)))

/-- Single-character classifier, wcwidth.py `wcwidth` lines 122-165.
`ucs` is ord(unichar); `combining` models unicodedata.combining as a
truth-valued predicate.  The first test is transcribed as the source
writes it: the int `ucs` compared by Python == against the one-character
string u"\x00", which is always false. -/
def wcwidth (combining : Nat → Bool) (ucs : Nat) : Int :=
  if pyEq (PyVal.int ucs) (PyVal.str "\x00") then 0
  else if ucs < 32 then -1
  else if 0x7f ≤ ucs ∧ ucs < 0xa0 then -1
  else if combining ucs then -1
  else 1 + (if wideRange ucs then 1 else 0)

/-- Fail-fast accumulation loop shared by `wcswidth` (lines 178-185) and
`wcswidth_cjk` (lines 346-353): per character take the width, return -1 as
soon as it is negative, otherwise add it to the running total. -/
def accumWidths (w : Nat → Int) : List Nat → Int → Int
  | [], width => width
  | c :: rest, width =>
    let wcw := w c
    if wcw < 0 then -1 else accumWidths w rest (width + wcw)

/-- Sequence classifier, wcwidth.py `wcswidth` lines 168-185.  The source
computes end = len(pwcs) if n is not None else n, then slices pwcs[0:end]:
so a non-None n yields end = len(pwcs) (the whole string, the given limit
unused) and n = None yields slice(0, None), also the whole string. -/
def wcswidth (combining : Nat → Bool) (pwcs : List Nat) (n : Option Nat) : Int :=
  let endIdx : Option Nat :=
    match n with
    | some _ => some pwcs.length
    | none => none
  let sliced : List Nat :=
    match endIdx with
    | some e => pwcs.take e
    | none => pwcs
  accumWidths (wcwidth combining) sliced 0

/-- Interval table _AMBIGUOUS, wcwidth.py lines 190-243. -/
def _AMBIGUOUS : List (Nat × Nat) := [
  (0x00A1, 0x00A1), (0x00A4, 0x00A4), (0x00A7, 0x00A8),
  (0x00AA, 0x00AA), (0x00AE, 0x00AE), (0x00B0, 0x00B4),
  (0x00B6, 0x00BA), (0x00BC, 0x00BF), (0x00C6, 0x00C6),
  (0x00D0, 0x00D0), (0x00D7, 0x00D8), (0x00DE, 0x00E1),
  (0x00E6, 0x00E6), (0x00E8, 0x00EA), (0x00EC, 0x00ED),
  (0x00F0, 0x00F0), (0x00F2, 0x00F3), (0x00F7, 0x00FA),
  (0x00FC, 0x00FC), (0x00FE, 0x00FE), (0x0101, 0x0101),
  (0x0111, 0x0111), (0x0113, 0x0113), (0x011B, 0x011B),
  (0x0126, 0x0127), (0x012B, 0x012B), (0x0131, 0x0133),
  (0x0138, 0x0138), (0x013F, 0x0142), (0x0144, 0x0144),
  (0x0148, 0x014B), (0x014D, 0x014D), (0x0152, 0x0153),
  (0x0166, 0x0167), (0x016B, 0x016B), (0x01CE, 0x01CE),
  (0x01D0, 0x01D0), (0x01D2, 0x01D2), (0x01D4, 0x01D4),
  (0x01D6, 0x01D6), (0x01D8, 0x01D8), (0x01DA, 0x01DA),
  (0x01DC, 0x01DC), (0x0251, 0x0251), (0x0261, 0x0261),
  (0x02C4, 0x02C4), (0x02C7, 0x02C7), (0x02C9, 0x02CB),
  (0x02CD, 0x02CD), (0x02D0, 0x02D0), (0x02D8, 0x02DB),
  (0x02DD, 0x02DD), (0x02DF, 0x02DF), (0x0391, 0x03A1),
  (0x03A3, 0x03A9), (0x03B1, 0x03C1), (0x03C3, 0x03C9),
  (0x0401, 0x0401), (0x0410, 0x044F), (0x0451, 0x0451),
  (0x2010, 0x2010), (0x2013, 0x2016), (0x2018, 0x2019),
  (0x201C, 0x201D), (0x2020, 0x2022), (0x2024, 0x2027),
  (0x2030, 0x2030), (0x2032, 0x2033), (0x2035, 0x2035),
  (0x203B, 0x203B), (0x203E, 0x203E), (0x2074, 0x2074),
  (0x207F, 0x207F), (0x2081, 0x2084), (0x20AC, 0x20AC),
  (0x2103, 0x2103), (0x2105, 0x2105), (0x2109, 0x2109),
  (0x2113, 0x2113), (0x2116, 0x2116), (0x2121, 0x2122),
  (0x2126, 0x2126), (0x212B, 0x212B), (0x2153, 0x2154),
  (0x215B, 0x215E), (0x2160, 0x216B), (0x2170, 0x2179),
  (0x2190, 0x2199), (0x21B8, 0x21B9), (0x21D2, 0x21D2),
  (0x21D4, 0x21D4), (0x21E7, 0x21E7), (0x2200, 0x2200),
  (0x2202, 0x2203), (0x2207, 0x2208), (0x220B, 0x220B),
  (0x220F, 0x220F), (0x2211, 0x2211), (0x2215, 0x2215),
  (0x221A, 0x221A), (0x221D, 0x2220), (0x2223, 0x2223),
  (0x2225, 0x2225), (0x2227, 0x222C), (0x222E, 0x222E),
  (0x2234, 0x2237), (0x223C, 0x223D), (0x2248, 0x2248),
  (0x224C, 0x224C), (0x2252, 0x2252), (0x2260, 0x2261),
  (0x2264, 0x2267), (0x226A, 0x226B), (0x226E, 0x226F),
  (0x2282, 0x2283), (0x2286, 0x2287), (0x2295, 0x2295),
  (0x2299, 0x2299), (0x22A5, 0x22A5), (0x22BF, 0x22BF),
  (0x2312, 0x2312), (0x2460, 0x24E9), (0x24EB, 0x254B),
  (0x2550, 0x2573), (0x2580, 0x258F), (0x2592, 0x2595),
  (0x25A0, 0x25A1), (0x25A3, 0x25A9), (0x25B2, 0x25B3),
  (0x25B6, 0x25B7), (0x25BC, 0x25BD), (0x25C0, 0x25C1),
  (0x25C6, 0x25C8), (0x25CB, 0x25CB), (0x25CE, 0x25D1),
  (0x25E2, 0x25E5), (0x25EF, 0x25EF), (0x2605, 0x2606),
  (0x2609, 0x2609), (0x260E, 0x260F), (0x2614, 0x2615),
  (0x261C, 0x261C), (0x261E, 0x261E), (0x2640, 0x2640),
  (0x2642, 0x2642), (0x2660, 0x2661), (0x2663, 0x2665),
  (0x2667, 0x266A), (0x266C, 0x266D), (0x266F, 0x266F),
  (0x273D, 0x273D), (0x2776, 0x277F), (0xE000, 0xF8FF),
  (0xFFFD, 0xFFFD), (0xF0000, 0xFFFFD), (0x100000, 0x10FFFD)
]

/-- Interval table _AMBIGUOUS_TESTING_NEW, wcwidth.py lines 247-320. -/
def _AMBIGUOUS_TESTING_NEW : List (Nat × Nat) := [
  (0x00A1, 0x00A1), (0x00A4, 0x00A4), (0x00A7, 0x00A8),
  (0x00AA, 0x00AA), (0x00AE, 0x00AE), (0x00B0, 0x00B4),
  (0x00B6, 0x00BA), (0x00BC, 0x00BF), (0x00C6, 0x00C6),
  (0x00D0, 0x00D0), (0x00D7, 0x00D8), (0x00DE, 0x00E1),
  (0x00E6, 0x00E6), (0x00E8, 0x00EA), (0x00EC, 0x00ED),
  (0x00F0, 0x00F0), (0x00F2, 0x00F3), (0x00F7, 0x00FA),
  (0x00FC, 0x00FC), (0x00FE, 0x00FE), (0x0101, 0x0101),
  (0x0111, 0x0111), (0x0113, 0x0113), (0x011B, 0x011B),
  (0x0126, 0x0127), (0x012B, 0x012B), (0x0131, 0x0133),
  (0x0138, 0x0138), (0x013F, 0x0142), (0x0144, 0x0144),
  (0x0148, 0x014B), (0x014D, 0x014D), (0x0152, 0x0153),
  (0x0166, 0x0167), (0x016B, 0x016B), (0x01CE, 0x01CE),
  (0x01D0, 0x01D0), (0x01D2, 0x01D2), (0x01D4, 0x01D4),
  (0x01D6, 0x01D6), (0x01D8, 0x01D8), (0x01DA, 0x01DA),
  (0x01DC, 0x01DC), (0x0251, 0x0251), (0x0261, 0x0261),
  (0x02C4, 0x02C4), (0x02C7, 0x02C7), (0x02C9, 0x02CB),
  (0x02CD, 0x02CD), (0x02D0, 0x02D0), (0x02D8, 0x02DB),
  (0x02DD, 0x02DD), (0x02DF, 0x02DF), (0x0391, 0x03A1),
  (0x03A3, 0x03A9), (0x03B1, 0x03C1), (0x03C3, 0x03C9),
  (0x0401, 0x0401), (0x0410, 0x044F), (0x0451, 0x0451),
  (0x2010, 0x2010), (0x2013, 0x2016), (0x2018, 0x2019),
  (0x201C, 0x201D), (0x2020, 0x2022), (0x2024, 0x2027),
  (0x2030, 0x2030), (0x2032, 0x2033), (0x2035, 0x2035),
  (0x203B, 0x203B), (0x203E, 0x203E), (0x2074, 0x2074),
  (0x207F, 0x207F), (0x2081, 0x2084), (0x20AC, 0x20AC),
  (0x2103, 0x2103), (0x2105, 0x2105), (0x2109, 0x2109),
  (0x2113, 0x2113), (0x2116, 0x2116), (0x2121, 0x2122),
  (0x2126, 0x2126), (0x212B, 0x212B), (0x2153, 0x2154),
  (0x215B, 0x215E), (0x2160, 0x216B), (0x2170, 0x2179),
  (0x2189, 0x2189),
  (0x2190, 0x2199), (0x21B8, 0x21B9), (0x21D2, 0x21D2),
  (0x21D4, 0x21D4), (0x21E7, 0x21E7), (0x2200, 0x2200),
  (0x2202, 0x2203), (0x2207, 0x2208), (0x220B, 0x220B),
  (0x220F, 0x220F), (0x2211, 0x2211), (0x2215, 0x2215),
  (0x221A, 0x221A), (0x221D, 0x2220), (0x2223, 0x2223),
  (0x2225, 0x2225), (0x2227, 0x222C), (0x222E, 0x222E),
  (0x2234, 0x2237), (0x223C, 0x223D), (0x2248, 0x2248),
  (0x224C, 0x224C), (0x2252, 0x2252), (0x2260, 0x2261),
  (0x2264, 0x2267), (0x226A, 0x226B), (0x226E, 0x226F),
  (0x2282, 0x2283), (0x2286, 0x2287), (0x2295, 0x2295),
  (0x2299, 0x2299), (0x22A5, 0x22A5), (0x22BF, 0x22BF),
  (0x2312, 0x2312), (0x2460, 0x24E9), (0x24EB, 0x254B),
  (0x2550, 0x2573), (0x2580, 0x258F), (0x2592, 0x2595),
  (0x25A0, 0x25A1), (0x25A3, 0x25A9), (0x25B2, 0x25B3),
  (0x25B6, 0x25B7), (0x25BC, 0x25BD), (0x25C0, 0x25C1),
  (0x25C6, 0x25C8), (0x25CB, 0x25CB), (0x25CE, 0x25D1),
  (0x25E2, 0x25E5), (0x25EF, 0x25EF), (0x2605, 0x2606),
  (0x2609, 0x2609), (0x260E, 0x260F), (0x2614, 0x2615),
  (0x261C, 0x261C), (0x261E, 0x261E), (0x2640, 0x2640),
  (0x2642, 0x2642), (0x2660, 0x2661), (0x2663, 0x2665),
  (0x2667, 0x266A), (0x266C, 0x266D), (0x266F, 0x266F),
  (0x269E, 0x269F), (0x26BE, 0x26BF), (0x26C4, 0x26CD),
  (0x26CF, 0x26E1), (0x26E3, 0x26E3), (0x26E8, 0x26FF),
  (0x273D, 0x273D),
  (0x2757, 0x2757),
  (0x2776, 0x277F),
  (0x2B55, 0x2B59), (0x3248, 0x324F),
  (0xE000, 0xF8FF),
  (0xFFFD, 0xFFFD),
  (0x1F100, 0x1F10A),
  (0x1F110, 0x1F12D),
  (0x1F130, 0x1F169),
  (0x1F170, 0x1F19A),
  (0xF0000, 0xFFFFD), (0x100000, 0x10FFFD)
]

/-- CJK single-character classifier, wcwidth.py `wcwidth_cjk` lines
331-338: the ambiguous-table membership test first, then fall back to
`wcwidth`. -/
def wcwidth_cjk (combining : Nat → Bool) (ucs : Nat) : Int :=
  if _bisearch ucs _AMBIGUOUS then 2
  else wcwidth combining ucs

/-- CJK sequence classifier, wcwidth.py `wcswidth_cjk` lines 341-353: the
same fail-fast accumulation as `wcswidth`, per character via
`wcwidth_cjk`, no limit parameter. -/
def wcswidth_cjk (combining : Nat → Bool) (pwcs : List Nat) : Int :=
  accumWidths (wcwidth_cjk combining) pwcs 0

/-- Interval-table invariant, from the spec: every interval has low ≤ high
and each high bound is strictly below the next low bound (so the table is
sorted ascending by low bound and the intervals are mutually
non-overlapping). -/
def tableSorted (t : List (Nat × Nat)) : Prop :=
  (∀ p ∈ t, p.1 ≤ p.2) ∧ t.Pairwise (fun a b => a.2 < b.1)

/-- Modelled from the spec wording of rule 5 of the classifier: the
hardcoded wide ranges, written as plain inclusive range tests, to be
compared with the transcription `wideRange` of the source disjunction. -/
def wideSpecB (c : Nat) : Bool :=
  (0x1100 ≤ c && c ≤ 0x115F) ||
  (0x2329 ≤ c && c ≤ 0x232A) ||
  (0x2E80 ≤ c && c ≤ 0xA4CF && c != 0x303F && !(0x4DC0 ≤ c && c ≤ 0x4DFF)) ||
  (0xAC00 ≤ c && c ≤ 0xD7A3) ||
  (0xF900 ≤ c && c ≤ 0xFAFF) ||
  (0xFE10 ≤ c && c ≤ 0xFE19) ||
  (0xFE30 ≤ c && c ≤ 0xFE6F) ||
  (0xFF00 ≤ c && c ≤ 0xFF60) ||
  (0xFFE0 ≤ c && c ≤ 0xFFE6) ||
  (0x20000 ≤ c && c ≤ 0x2FFFD) ||
  (0x30000 ≤ c && c ≤ 0x3FFFD)

lemma bisearchLoop_stop {ucs : Nat} {t : List (Nat × Nat)} {lb ub : Int}
    (h : ¬ lb ≤ ub) : bisearchLoop ucs t lb ub = false := by
  rw [bisearchLoop]
  simp [h]

lemma bisearchLoop_gt {ucs : Nat} {t : List (Nat × Nat)} {lb ub : Int}
    (h : lb ≤ ub) (hgt : (tIdx t (((lb + ub) / 2).toNat)).2 < ucs) :
    bisearchLoop ucs t lb ub = bisearchLoop ucs t ((lb + ub) / 2 + 1) ub := by
  rw [bisearchLoop]
  simp [h, hgt]

lemma bisearchLoop_lt {ucs : Nat} {t : List (Nat × Nat)} {lb ub : Int}
    (h : lb ≤ ub) (hgt : ¬ (tIdx t (((lb + ub) / 2).toNat)).2 < ucs)
    (hlt : ucs < (tIdx t (((lb + ub) / 2).toNat)).1) :
    bisearchLoop ucs t lb ub = bisearchLoop ucs t lb ((lb + ub) / 2 - 1) := by
  rw [bisearchLoop]
  simp [h, hgt, hlt]

lemma bisearchLoop_found {ucs : Nat} {t : List (Nat × Nat)} {lb ub : Int}
    (h : lb ≤ ub) (hgt : ¬ (tIdx t (((lb + ub) / 2).toNat)).2 < ucs)
    (hlt : ¬ ucs < (tIdx t (((lb + ub) / 2).toNat)).1) :
    bisearchLoop ucs t lb ub = true := by
  rw [bisearchLoop]
  simp [h, hgt, hlt]

lemma tIdx_eq_getElem (t : List (Nat × Nat)) (i : Nat) (h : i < t.length) :
    tIdx t i = t[i] := List.getD_eq_getElem t (0, 0) h

lemma tableSorted_lohi {t : List (Nat × Nat)} (hs : tableSorted t)
    (i : Nat) (h : i < t.length) : (tIdx t i).1 ≤ (tIdx t i).2 := by
  rw [tIdx_eq_getElem t i h]
  exact hs.1 t[i] (List.getElem_mem h)

lemma tableSorted_lt {t : List (Nat × Nat)} (hs : tableSorted t)
    (i j : Nat) (hij : i < j) (hj : j < t.length) :
    (tIdx t i).2 < (tIdx t j).1 := by
  have hi : i < t.length := by omega
  rw [tIdx_eq_getElem t i hi, tIdx_eq_getElem t j hj]
  have h2 := hs.2
  rw [List.pairwise_iff_getElem] at h2
  exact h2 i j hi hj hij

lemma bisearchLoop_true_iff {ucs : Nat} {t : List (Nat × Nat)} (hs : tableSorted t) :
    ∀ lb ub : Int, 0 ≤ lb → ub < (t.length : Int) →
    (bisearchLoop ucs t lb ub = true ↔
      ∃ i : Nat, lb ≤ (i : Int) ∧ (i : Int) ≤ ub ∧ (tIdx t i).1 ≤ ucs ∧ ucs ≤ (tIdx t i).2) := by
  intro lb ub
  induction lb, ub using bisearchLoop.induct ucs t with
  | case1 lb ub hle mid hgt ih =>
    intro hlb hub
    have hmid : lb ≤ mid ∧ mid ≤ ub := by constructor <;> omega
    have hmid0 : (mid.toNat : Int) = mid := by omega
    rw [bisearchLoop_gt hle hgt]
    rw [ih (by omega) (by omega)]
    constructor
    · rintro ⟨i, hi1, hi2, hi3, hi4⟩
      exact ⟨i, by omega, hi2, hi3, hi4⟩
    · rintro ⟨i, hi1, hi2, hi3, hi4⟩
      refine ⟨i, ?_, hi2, hi3, hi4⟩
      -- show mid + 1 ≤ i: otherwise i ≤ mid and the interval at i ends before ucs
      by_contra hcon
      have hile : (i : Int) ≤ mid := by omega
      rcases lt_or_eq_of_le hile with hlt | heq
      · have := tableSorted_lt hs i mid.toNat (by omega) (by omega)
        have hm := tableSorted_lohi hs mid.toNat (by omega)
        omega
      · have : i = mid.toNat := by omega
        subst this
        omega
  | case2 lb ub hle mid hgt hlt ih =>
    intro hlb hub
    have hmid : lb ≤ mid ∧ mid ≤ ub := by constructor <;> omega
    have hmid0 : (mid.toNat : Int) = mid := by omega
    rw [bisearchLoop_lt hle hgt hlt]
    rw [ih (by omega) (by omega)]
    constructor
    · rintro ⟨i, hi1, hi2, hi3, hi4⟩
      exact ⟨i, hi1, by omega, hi3, hi4⟩
    · rintro ⟨i, hi1, hi2, hi3, hi4⟩
      refine ⟨i, hi1, ?_, hi3, hi4⟩
      by_contra hcon
      have hige : mid ≤ (i : Int) := by omega
      rcases lt_or_eq_of_le hige with hlt2 | heq
      · have := tableSorted_lt hs mid.toNat i (by omega) (by omega)
        have hm := tableSorted_lohi hs mid.toNat (by omega)
        omega
      · have : i = mid.toNat := by omega
        subst this
        omega
  | case3 lb ub hle mid hgt hlt =>
    intro hlb hub
    have hmid : lb ≤ mid ∧ mid ≤ ub := by constructor <;> omega
    have hmid0 : (mid.toNat : Int) = mid := by omega
    rw [bisearchLoop_found hle hgt hlt]
    refine ⟨fun _ => ⟨mid.toNat, by omega, by omega, by omega, by omega⟩, fun _ => rfl⟩
  | case4 lb ub hle =>
    intro hlb hub
    rw [bisearchLoop_stop hle]
    constructor
    · intro hfalse
      exact absurd hfalse (by simp)
    · rintro ⟨i, hi1, hi2, _, _⟩
      omega

lemma tIdx_mem (t : List (Nat × Nat)) (i : Nat) (h : i < t.length) : tIdx t i ∈ t := by
  rw [tIdx_eq_getElem t i h]
  exact List.getElem_mem h

lemma exists_tIdx_of_mem {t : List (Nat × Nat)} {p : Nat × Nat} (h : p ∈ t) :
    ∃ i, i < t.length ∧ tIdx t i = p := by
  rcases List.mem_iff_getElem.mp h with ⟨i, hi, hp⟩
  exact ⟨i, hi, by rw [tIdx_eq_getElem t i hi, hp]⟩

lemma bisearch_true_iff {ucs : Nat} {t : List (Nat × Nat)} (hne : t ≠ [])
    (hs : tableSorted t) :
    _bisearch ucs t = true ↔ ∃ p ∈ t, p.1 ≤ ucs ∧ ucs ≤ p.2 := by
  have hlen : 0 < t.length := List.length_pos.mpr hne
  unfold _bisearch
  by_cases hearly : ucs < (tIdx t 0).1 ∨ (tIdx t (t.length - 1)).2 < ucs
  · rw [if_pos hearly]
    constructor
    · intro hfalse
      exact absurd hfalse (by simp)
    · rintro ⟨p, hp, hp1, hp2⟩
      exfalso
      rcases exists_tIdx_of_mem hp with ⟨i, hi, hip⟩
      rcases hearly with hlow | hhigh
      · rcases Nat.eq_zero_or_pos i with h0 | h0
        · subst h0; rw [hip] at hlow; omega
        · have := tableSorted_lt hs 0 i h0 hi
          have h00 := tableSorted_lohi hs 0 hlen
          rw [hip] at this
          omega
      · rcases Nat.lt_or_ge i (t.length - 1) with hilt | hige
        · have := tableSorted_lt hs i (t.length - 1) hilt (by omega)
          have hl := tableSorted_lohi hs (t.length - 1) (by omega)
          rw [hip] at this
          omega
        · have : i = t.length - 1 := by omega
          subst this
          rw [hip] at hhigh
          omega
  · rw [if_neg hearly]
    rw [bisearchLoop_true_iff hs 0 ((t.length : Int) - 1) (by omega) (by omega)]
    constructor
    · rintro ⟨i, _, hi2, hi3, hi4⟩
      exact ⟨tIdx t i, tIdx_mem t i (by omega), hi3, hi4⟩
    · rintro ⟨p, hp, hp1, hp2⟩
      rcases exists_tIdx_of_mem hp with ⟨i, hi, hip⟩
      exact ⟨i, by omega, by omega, by rw [hip]; omega⟩

lemma pyEq_int_str (i : Int) (s : String) :
    pyEq (PyVal.int i) (PyVal.str s) = false := rfl

lemma wcwidth_cases (f : Nat → Bool) (ucs : Nat) :
    wcwidth f ucs = -1 ∨ wcwidth f ucs = 1 ∨ wcwidth f ucs = 2 := by
  unfold wcwidth
  rw [pyEq_int_str]
  simp only [Bool.false_eq_true, if_false]
  split
  · exact Or.inl rfl
  · split
    · exact Or.inl rfl
    · split
      · exact Or.inl rfl
      · split
        · right; right; norm_num
        · right; left; norm_num

lemma wcwidth_cjk_cases (f : Nat → Bool) (ucs : Nat) :
    wcwidth_cjk f ucs = -1 ∨ wcwidth_cjk f ucs = 1 ∨ wcwidth_cjk f ucs = 2 := by
  unfold wcwidth_cjk
  split
  · right; right; rfl
  · exact wcwidth_cases f ucs

lemma accumWidths_sum (w : Nat → Int) (l : List Nat) (acc : Int)
    (h : ∀ c ∈ l, ¬ w c < 0) :
    accumWidths w l acc = acc + (l.map w).sum := by
  induction l generalizing acc with
  | nil => simp [accumWidths]
  | cons c rest ih =>
    have hc := h c (by simp)
    rw [accumWidths]
    simp only [if_neg hc]
    rw [ih _ (fun d hd => h d (List.mem_cons_of_mem c hd))]
    simp only [List.map_cons, List.sum_cons]
    ring

lemma accumWidths_neg (w : Nat → Int) (l : List Nat) (acc : Int)
    (h : ∃ c ∈ l, w c < 0) :
    accumWidths w l acc = -1 := by
  induction l generalizing acc with
  | nil => simp at h
  | cons c rest ih =>
    rw [accumWidths]
    by_cases hc : w c < 0
    · simp only [if_pos hc]
    · simp only [if_neg hc]
      apply ih
      rcases h with ⟨d, hd, hdneg⟩
      rcases List.mem_cons.mp hd with rfl | hdrest
      · exact absurd hdneg hc
      · exact ⟨d, hdrest, hdneg⟩

set_option maxRecDepth 100000 in
lemma ambiguous_sorted : tableSorted _AMBIGUOUS := by
  unfold tableSorted
  exact ⟨by decide, by decide⟩

set_option maxRecDepth 100000 in
lemma ambiguous_new_sorted : tableSorted _AMBIGUOUS_TESTING_NEW := by
  unfold tableSorted
  exact ⟨by decide, by decide⟩

lemma ambiguous_ne_nil : _AMBIGUOUS ≠ [] := by decide

lemma tableSorted_pairwise_lo {t : List (Nat × Nat)} (hs : tableSorted t) :
    t.Pairwise (fun a b => a.1 < b.1) := by
  have h2 := hs.2
  rw [List.pairwise_iff_getElem] at h2 ⊢
  intro i j hi hj hij
  have hlt := h2 i j hi hj hij
  have hlohi := hs.1 (t[i]) (List.getElem_mem hi)
  omega

lemma wideRange_eq_wideSpecB (ucs : Nat) : wideRange ucs = wideSpecB ucs := by
  rw [Bool.eq_iff_iff]
  unfold wideRange wideSpecB
  simp only [Bool.and_eq_true, Bool.or_eq_true, Bool.not_eq_true', decide_eq_true_eq,
    beq_iff_eq, bne_iff_ne, Bool.and_eq_false_iff, decide_eq_false_iff_not, not_le]
  omega

/-- Claim C1 (code bug): the spec and the source comments say wcwidth of
U+0000 is 0, but the source compares the int ucs with the string u"\x00",
a comparison that is never true in Python, so code point 0 falls through to
the ucs < 32 rule and the function returns -1. -/
theorem claim_C1_nul_actual (f : Nat → Bool) : wcwidth f 0 = -1 := by
  unfold wcwidth
  rw [pyEq_int_str]
  norm_num

/-- Claim C2 (code bug): wcswidth with a non-None limit n is supposed to
measure only the first n characters, but the source computes the slice end
as len(pwcs) whenever n is not None, so the limit is ignored and the whole
sequence is measured: wcswidth(s, n) always equals wcswidth(s); at
s = "AA", n = 1 the code returns 2 where the claim demands 1. -/
theorem claim_C2_limit_ignored :
    (∀ (f : Nat → Bool) (s : List Nat) (n : Nat),
      wcswidth f s (some n) = wcswidth f s none) ∧
    wcswidth (fun _ => false) [0x41, 0x41] (some 1) = 2 := by
  constructor
  · intro f s n
    unfold wcswidth
    simp [List.take_length]
  · decide

/-- Claim C3: with no limit, the sequence classifiers sum the per-character
widths when every width is non-negative, and return exactly -1 as soon as
any character has width -1, regardless of its position; wcswidth_cjk has
the same fail-fast behaviour with wcwidth_cjk per character. -/
theorem claim_C3_failfast (f : Nat → Bool) (s : List Nat) :
    ((∀ c ∈ s, 0 ≤ wcwidth f c) → wcswidth f s none = (s.map (wcwidth f)).sum) ∧
    ((∃ c ∈ s, wcwidth f c = -1) → wcswidth f s none = -1) ∧
    wcswidth f [] none = 0 ∧
    ((∀ c ∈ s, 0 ≤ wcwidth_cjk f c) → wcswidth_cjk f s = (s.map (wcwidth_cjk f)).sum) ∧
    ((∃ c ∈ s, wcwidth_cjk f c = -1) → wcswidth_cjk f s = -1) := by
  refine ⟨?_, ?_, rfl, ?_, ?_⟩
  · intro h
    unfold wcswidth
    rw [accumWidths_sum]
    · ring
    · intro c hc
      have := h c hc
      omega
  · intro h
    unfold wcswidth
    apply accumWidths_neg
    rcases h with ⟨c, hc, hneg⟩
    exact ⟨c, hc, by omega⟩
  · intro h
    unfold wcswidth_cjk
    rw [accumWidths_sum]
    · ring
    · intro c hc
      have := h c hc
      omega
  · intro h
    unfold wcswidth_cjk
    apply accumWidths_neg
    rcases h with ⟨c, hc, hneg⟩
    exact ⟨c, hc, by omega⟩

/-- Claim C3 witness: the general theorem applied at concrete inputs. -/
theorem claim_C3_witness :
    wcswidth (fun _ => false) [0x41, 0x42] none = 2 ∧
    wcswidth (fun _ => false) [0x41, 0x01] none = -1 := by
  constructor
  · have h := (claim_C3_failfast (fun _ => false) [0x41, 0x42]).1 (by decide)
    rw [h]
    decide
  · exact (claim_C3_failfast (fun _ => false) [0x41, 0x01]).2.1 ⟨0x01, by decide, by decide⟩



/-- Claim C4: wcwidth_cjk returns 2 exactly when the code point lies in some
interval of the _AMBIGUOUS table it binds to, overriding the standard
classifier, and delegates to wcwidth otherwise; in particular U+00A1 is
widened to 2 while the default classifier gives it width 1. -/
theorem claim_C4_cjk (f : Nat → Bool) (ucs : Nat) :
    ((∃ p ∈ _AMBIGUOUS, p.1 ≤ ucs ∧ ucs ≤ p.2) → wcwidth_cjk f ucs = 2) ∧
    ((¬ ∃ p ∈ _AMBIGUOUS, p.1 ≤ ucs ∧ ucs ≤ p.2) → wcwidth_cjk f ucs = wcwidth f ucs) ∧
    wcwidth_cjk f 0xA1 = 2 ∧
    (f 0xA1 = false → wcwidth f 0xA1 = 1) := by
  have hiff : ∀ c : Nat, _bisearch c _AMBIGUOUS = true ↔ ∃ p ∈ _AMBIGUOUS, p.1 ≤ c ∧ c ≤ p.2 :=
    fun c => bisearch_true_iff ambiguous_ne_nil ambiguous_sorted
  refine ⟨?_, ?_, ?_, ?_⟩
  · intro h
    unfold wcwidth_cjk
    rw [if_pos ((hiff ucs).mpr h)]
  · intro h
    unfold wcwidth_cjk
    rw [if_neg]
    intro habs
    exact h ((hiff ucs).mp habs)
  · unfold wcwidth_cjk
    rw [if_pos ((hiff 0xA1).mpr ⟨(0xA1, 0xA1), by decide, by decide⟩)]
  · intro hcomb
    unfold wcwidth
    rw [pyEq_int_str]
    simp only [Bool.false_eq_true, if_false, hcomb]
    norm_num
    decide

/-- Claim C4 witness: the concrete parts of the claim at a combining
predicate that marks nothing. -/
theorem claim_C4_witness :
    wcwidth_cjk (fun _ => false) 0xA1 = 2 ∧ wcwidth (fun _ => false) 0xA1 = 1 :=
  ⟨(claim_C4_cjk (fun _ => false) 0xA1).2.2.1,
   (claim_C4_cjk (fun _ => false) 0xA1).2.2.2 rfl⟩

/-- Claim C5: on every non-empty table of inclusive intervals, sorted
ascending by low bound and mutually non-overlapping, the binary search
returns true exactly when some interval of the table contains the code
point; in particular it returns false below the first low bound and above
the last high bound.  The search always terminates: bisearchLoop is a total
function, defined by well-founded recursion on the width of the remaining
index range. -/
theorem claim_C5_bisearch (t : List (Nat × Nat)) (ucs : Nat)
    (hne : t ≠ []) (hs : tableSorted t) :
    (_bisearch ucs t = true ↔ ∃ p ∈ t, p.1 ≤ ucs ∧ ucs ≤ p.2) ∧
    (ucs < (tIdx t 0).1 → _bisearch ucs t = false) ∧
    ((tIdx t (t.length - 1)).2 < ucs → _bisearch ucs t = false) := by
  refine ⟨bisearch_true_iff hne hs, ?_, ?_⟩
  · intro h
    unfold _bisearch
    rw [if_pos (Or.inl h)]
  · intro h
    unfold _bisearch
    rw [if_pos (Or.inr h)]

/-- Claim C5 witness: the search theorem applied to a small concrete
table. -/
theorem claim_C5_witness :
    _bisearch 7 [(2, 3), (5, 9)] = true ∧ _bisearch 1 [(2, 3), (5, 9)] = false := by
  have h7 := claim_C5_bisearch [(2, 3), (5, 9)] 7 (by decide) ⟨by decide, by decide⟩
  have h1 := claim_C5_bisearch [(2, 3), (5, 9)] 1 (by decide) ⟨by decide, by decide⟩
  exact ⟨h7.1.mpr ⟨(5, 9), by decide, by decide, by decide⟩, h1.2.1 (by decide)⟩

/-- Claim C6: a code point that reaches rule 5 (at least 32, not DEL or a
C1 control, not combining) gets width 2 exactly when it lies in the
hardcoded wide ranges, written out in `wideSpecB` as the spec lists them,
and width 1 otherwise. -/
theorem claim_C6_wide (f : Nat → Bool) (ucs : Nat) (h32 : 32 ≤ ucs)
    (hctrl : ¬ (0x7f ≤ ucs ∧ ucs < 0xa0)) (hcomb : f ucs = false) :
    wcwidth f ucs = if wideSpecB ucs then 2 else 1 := by
  unfold wcwidth
  rw [pyEq_int_str]
  simp only [Bool.false_eq_true, if_false, hcomb]
  rw [if_neg (by omega), if_neg hctrl]
  rw [wideRange_eq_wideSpecB]
  cases h : wideSpecB ucs <;> norm_num

/-- Claim C6 witness: a CJK ideograph is wide, a Latin letter is not. -/
theorem claim_C6_witness :
    wcwidth (fun _ => false) 0x4E00 = 2 ∧ wcwidth (fun _ => false) 0x41 = 1 := by
  have h1 := claim_C6_wide (fun _ => false) 0x4E00 (by norm_num) (by norm_num) rfl
  have h2 := claim_C6_wide (fun _ => false) 0x41 (by norm_num) (by norm_num) rfl
  exact ⟨by rw [h1]; decide, by rw [h2]; decide⟩

/-- Claim C7: a code point past the control-character rules that the
combining predicate classifies as combining gets width -1. -/
theorem claim_C7_combining (f : Nat → Bool) (ucs : Nat) (h32 : 32 ≤ ucs)
    (hctrl : ¬ (0x7f ≤ ucs ∧ ucs < 0xa0)) (hcomb : f ucs = true) :
    wcwidth f ucs = -1 := by
  unfold wcwidth
  rw [pyEq_int_str]
  simp only [Bool.false_eq_true, if_false, hcomb]
  rw [if_neg (by omega), if_neg hctrl]
  simp

/-- Claim C7 witness: the theorem at U+0300 under a predicate that marks
everything combining. -/
theorem claim_C7_witness : wcwidth (fun _ => true) 0x300 = -1 :=
  claim_C7_combining (fun _ => true) 0x300 (by norm_num) (by norm_num) rfl

/-- Claim C8: C0 controls other than NUL, DEL and C1 controls all get
width -1. -/
theorem claim_C8_controls (f : Nat → Bool) (ucs : Nat)
    (h : (0 < ucs ∧ ucs < 32) ∨ (0x7f ≤ ucs ∧ ucs < 0xa0)) :
    wcwidth f ucs = -1 := by
  unfold wcwidth
  rw [pyEq_int_str]
  simp only [Bool.false_eq_true, if_false]
  rcases h with h | h
  · rw [if_pos (by omega)]
  · rw [if_neg (by omega), if_pos h]

/-- Claim C8 witness: the theorem at U+0001 and U+007F. -/
theorem claim_C8_witness :
    wcwidth (fun _ => false) 0x01 = -1 ∧ wcwidth (fun _ => false) 0x7f = -1 :=
  ⟨claim_C8_controls (fun _ => false) 0x01 (by norm_num),
   claim_C8_controls (fun _ => false) 0x7f (by norm_num)⟩

/-- Claim C9: both static ambiguous-width tables satisfy the interval-table
invariant: low ≤ high in every interval, every earlier high bound strictly
below every later low bound (so no two intervals share or straddle a code
point), and the low bounds strictly ascending. -/
theorem claim_C9_tables :
    (tableSorted _AMBIGUOUS ∧ _AMBIGUOUS.Pairwise (fun a b => a.1 < b.1)) ∧
    (tableSorted _AMBIGUOUS_TESTING_NEW ∧
      _AMBIGUOUS_TESTING_NEW.Pairwise (fun a b => a.1 < b.1)) :=
  ⟨⟨ambiguous_sorted, tableSorted_pairwise_lo ambiguous_sorted⟩,
   ⟨ambiguous_new_sorted, tableSorted_pairwise_lo ambiguous_new_sorted⟩⟩

/-- Claim C10: both single-character classifiers only ever return -1, 1
or 2; the zero-width classification is never produced. -/
theorem claim_C10_range (f : Nat → Bool) (ucs : Nat) :
    (wcwidth f ucs = -1 ∨ wcwidth f ucs = 1 ∨ wcwidth f ucs = 2) ∧
    (wcwidth_cjk f ucs = -1 ∨ wcwidth_cjk f ucs = 1 ∨ wcwidth_cjk f ucs = 2) ∧
    wcwidth f ucs ≠ 0 ∧ wcwidth_cjk f ucs ≠ 0 := by
  have h1 := wcwidth_cases f ucs
  have h2 := wcwidth_cjk_cases f ucs
  refine ⟨h1, h2, ?_, ?_⟩ <;> omega
